import Mathlib

/-!
Verification development for the clawmasutra multi-agent orchestration core.

The definitions below are a shallow embedding of the TypeScript sources
`mcp-server/src/orchestrator/message-bus.ts` (MessageBus, Orchestrator,
SkillLoader), `mcp-server/src/orchestrator/types.ts` (type definitions,
AgentRuntime) and `mcp-server/src/tools/position-invoke.ts` (position_stop).

Modelling conventions:
- JavaScript `Map` objects become Lean functions from keys to values
  (`Map.get` is application, absent keys give the same default the source
  uses) or, for `Session.agents`, a list in insertion order whose elements
  carry their keys (agent ids), since the orchestrator only iterates it.
- Timestamps (`Date.now()`, `new Date()`) become explicit `Nat` parameters.
- Generated random identifiers become explicit `String` parameters.
- `undefined` / optional fields become `Option`.
- Observer callbacks (`notifySubscribers`, gallery emission) only invoke
  external sinks and never change bus or session state; they are not part
  of the state model.
- All functions are total: TypeScript code paths that cannot throw are
  modelled as plain functions.
-/

namespace Clawmasutra

/-- Message type vocabulary VALID_MESSAGE_TYPES from message-bus.ts. The
TypeScript `MessageType` union is modelled as strings so that validation of
arbitrary incoming type strings can be expressed. -/
def VALID_MESSAGE_TYPES : List String :=
  ["READY_TO_SHARE", "RESULTS", "ACKNOWLEDGE", "DISCREPANCY", "CONSENSUS",
   "ESCALATE", "INSTRUCTION", "QUERY", "RESPONSE", "PYRAMID_ASSIGN",
   "PYRAMID_REPORT", "STATUS_UPDATE", "COMPLETE"]

/-- isValidMessageType from message-bus.ts. -/
def isValidMessageType (type : String) : Bool :=
  VALID_MESSAGE_TYPES.contains type

/-- AgentMessage from types.ts. The field `from` is a Lean keyword, hence
`from'`. `content : unknown` is modelled as `Option String` (a `none`
content corresponds to the JavaScript value `undefined`). The timestamp
field is not tracked (no claim depends on message timestamps). -/
structure AgentMessage where
  id : String
  from' : String
  to' : String
  sessionId : String
  type : String
  content : Option String
  acknowledged : Bool
  deriving DecidableEq

/-- Argument of validateMessage: Partial of AgentMessage, every field may be
absent. -/
structure PartialMessage where
  from' : Option String
  to' : Option String
  sessionId : Option String
  type : Option String
  content : Option String
  deriving DecidableEq

/-- Result record of validateMessage. -/
structure ValidationResult where
  valid : Bool
  error : Option String
  deriving DecidableEq

/-- JavaScript truthiness of an optional string field, as used by the
checks of the form not message.from in validateMessage: an absent field or
the empty string is falsy. -/
def presentString : Option String → Bool
  | none => false
  | some s => s != ""

/-- validateMessage from message-bus.ts. The TypeScript check on the type
field is (falsy type) or (not isValidMessageType type); an empty-string type
is not in the vocabulary, so the single match below is equivalent. -/
def validateMessage (message : PartialMessage) : ValidationResult :=
  if !presentString message.from' then
    { valid := false, error := some "from is required and must be a string" }
  else if !presentString message.to' then
    { valid := false, error := some "to is required and must be a string" }
  else if !presentString message.sessionId then
    { valid := false, error := some "sessionId is required and must be a string" }
  else if !(match message.type with
            | none => false
            | some t => isValidMessageType t) then
    { valid := false,
      error := some ("type must be one of: " ++ String.intercalate ", " VALID_MESSAGE_TYPES) }
  else if message.content.isNone then
    { valid := false, error := some "content is required" }
  else
    { valid := true, error := none }

/-- MessageBus state from message-bus.ts: per-session history and per-agent
pending queues. The subscriber set is not modelled (handlers observe
messages but never change bus state). -/
structure MessageBus where
  messages : String → List AgentMessage
  pendingByAgent : String → List AgentMessage
  maxMessagesPerSession : Nat

/-- Default of the MessageBus constructor parameter maxMessagesPerSession. -/
def defaultMaxMessagesPerSession : Nat := 1000

/-- MessageBus.addToSessionHistory: push, then trim to the most recent
maxMessagesPerSession entries (splice of the oldest overflow). -/
def MessageBus.addToSessionHistory (bus : MessageBus) (message : AgentMessage) : MessageBus :=
  let history := bus.messages message.sessionId ++ [message]
  let history :=
    if history.length > bus.maxMessagesPerSession then
      history.drop (history.length - bus.maxMessagesPerSession)
    else history
  { bus with messages := fun sid => if sid = message.sessionId then history else bus.messages sid }

/-- MessageBus.addToPending: append to the agent's pending queue. -/
def MessageBus.addToPending (bus : MessageBus) (agentId : String) (message : AgentMessage) : MessageBus :=
  { bus with pendingByAgent := fun a =>
      if a = agentId then bus.pendingByAgent agentId ++ [message] else bus.pendingByAgent a }

/-- MessageBus.broadcastInSession (message-bus.ts lines 198 to 206): the
method body contains only comments; the bus performs no fan-out itself for
the literal "all" recipient and relies on the orchestrator to expand
broadcasts. -/
def MessageBus.broadcastInSession (bus : MessageBus) (_message : AgentMessage) : MessageBus :=
  bus

/-- The fields of a message handed to MessageBus.send, before id,
timestamp and acknowledged are filled in (Omit of AgentMessage). -/
structure MessageDraft where
  from' : String
  to' : String
  sessionId : String
  type : String
  content : Option String
  deriving DecidableEq

/-- Completion of a draft into the stored fullMessage of MessageBus.send
(id generation is modelled by the explicit freshId argument). -/
def MessageDraft.full (draft : MessageDraft) (freshId : String) : AgentMessage :=
  { id := freshId, from' := draft.from', to' := draft.to', sessionId := draft.sessionId,
    type := draft.type, content := draft.content, acknowledged := false }

/-- MessageBus.send: record in session history, then route: "all" goes to
broadcastInSession (a no-op), "orchestrator" is only handed to subscribers,
any other recipient gets the message appended to its pending queue. -/
def MessageBus.send (bus : MessageBus) (freshId : String) (draft : MessageDraft) :
    AgentMessage × MessageBus :=
  let fullMessage := draft.full freshId
  let bus := bus.addToSessionHistory fullMessage
  let bus :=
    if draft.to' = "all" then bus.broadcastInSession fullMessage
    else if draft.to' = "orchestrator" then bus
    else bus.addToPending draft.to' fullMessage
  (fullMessage, bus)

/-- MessageBus.receive: return the agent's pending queue and reset it to
empty (destructive read). -/
def MessageBus.receive (bus : MessageBus) (agentId : String) :
    List AgentMessage × MessageBus :=
  (bus.pendingByAgent agentId,
   { bus with pendingByAgent := fun a => if a = agentId then [] else bus.pendingByAgent a })

/-- MessageBus.getSessionHistory: the tail of the session history;
slice with a negative index keeps the last limit entries (all of them when
limit exceeds the length, which the drop of a truncated difference also
does). A limit of 0 is falsy in the source and returns the whole history. -/
def MessageBus.getSessionHistory (bus : MessageBus) (sessionId : String) (limit : Option Nat) :
    List AgentMessage :=
  let history := bus.messages sessionId
  match limit with
  | some l => if 0 < l then history.drop (history.length - l) else history
  | none => history

/-- MessageBus.clearSession: drop the session history and filter the
session's messages out of every pending queue. -/
def MessageBus.clearSession (bus : MessageBus) (sessionId : String) : MessageBus :=
  { bus with
    messages := fun sid => if sid = sessionId then [] else bus.messages sid,
    pendingByAgent := fun a => (bus.pendingByAgent a).filter (fun m => m.sessionId != sessionId) }

/-- SessionStatus from types.ts. -/
inductive SessionStatus where
  | initializing
  | spawning_agents
  | running
  | completing
  | completed
  | error
  | timeout
  | stopped
  deriving DecidableEq

/-- Terminal statuses of the declared session state machine (spec sections
3 and 4.4). -/
def SessionStatus.isTerminal : SessionStatus → Bool
  | SessionStatus.completed => true
  | SessionStatus.error => true
  | SessionStatus.timeout => true
  | SessionStatus.stopped => true
  | _ => false

/-- Modelled from the spec: the declared session state machine
initializing → spawning_agents → running → completed, with error, timeout
and stopped reachable from any non-terminal state, and every terminal
state absorbing (no outgoing edges). -/
def declaredEdge : SessionStatus → SessionStatus → Bool
  | SessionStatus.initializing, SessionStatus.spawning_agents => true
  | SessionStatus.spawning_agents, SessionStatus.running => true
  | SessionStatus.running, SessionStatus.completed => true
  | s, SessionStatus.error => !s.isTerminal
  | s, SessionStatus.timeout => !s.isTerminal
  | s, SessionStatus.stopped => !s.isTerminal
  | _, _ => false

/-- SessionConfig from types.ts; every field is optional. -/
structure SessionConfig where
  target : Option String := none
  network : Option String := none
  duration : Option Nat := none
  allowTransactions : Option Bool := none
  maxTokensPerAgent : Option Nat := none
  deriving DecidableEq

/-- Agent from types.ts, restricted to the fields the orchestrator-level
claims read. The bound AgentRole is represented by its name; conversation
history and the runtime status string are irrelevant to session routing. -/
structure Agent where
  id : String
  sessionId : String
  roleName : String
  pendingMessages : List AgentMessage := []
  tokensUsed : Nat := 0
  turnsCompleted : Nat := 0
  deriving DecidableEq

/-- Session from types.ts. The agents Map (id → Agent, iterated in
insertion order) is modelled as the list of its values; each value carries
its key in the id field, and keys are unique in a Map. -/
structure Session where
  id : String
  positionName : String
  category : String
  agents : List Agent
  status : SessionStatus
  config : SessionConfig := {}
  startedAt : Nat := 0
  completedAt : Option Nat := none
  error : Option String := none
  deriving DecidableEq

/-- Orchestrator state: the sessions Map and the message bus. -/
structure OrchestratorState where
  sessions : String → Option Session
  bus : MessageBus

/-- Orchestrator.createSession, restricted to the session object and the
sequence of statuses it holds during the call: initializing at creation,
spawning_agents while the agents are spawned, running just before the
asynchronous topology loop is started. Skill loading and gallery emission
do not touch the status. -/
def createSession (sessionId positionName category : String) (agents : List Agent)
    (config : SessionConfig) (now : Nat) : Session × List SessionStatus :=
  let s0 : Session :=
    { id := sessionId, positionName := positionName, category := category,
      agents := agents, status := SessionStatus.initializing,
      config := config, startedAt := now }
  let s1 := { s0 with status := SessionStatus.spawning_agents }
  let s2 := { s1 with status := SessionStatus.running }
  (s2, [s0.status, s1.status, s2.status])

/-- Orchestrator.stopSession: a lookup miss returns immediately; otherwise
the status is set to stopped and completedAt to the current time without
inspecting the previous status, the runtime's agents are destroyed (not
tracked here) and the bus state for the session is cleared. The function is
total: no path throws. -/
def stopSession (st : OrchestratorState) (sessionId : String) (now : Nat) : OrchestratorState :=
  match st.sessions sessionId with
  | none => st
  | some session =>
    let session := { session with status := SessionStatus.stopped, completedAt := some now }
    { st with
      sessions := fun sid => if sid = sessionId then some session else st.sessions sid,
      bus := st.bus.clearSession sessionId }

/-- Orchestrator.completeSession: sets status to completed and completedAt
to the current time, without inspecting the previous status. -/
def completeSession (session : Session) (now : Nat) : Session :=
  { session with status := SessionStatus.completed, completedAt := some now }

/-- Result record of Orchestrator.sessionsSend. -/
structure SendResult where
  success : Bool
  messageId : Option String := none
  error : Option String := none
  deriving DecidableEq

/-- One step of the broadcast expansion loop in Orchestrator.sessionsSend:
for the p.1-th agent p.2 of the session, a direct bus send to that agent
unless it is the sender. -/
def broadcastStep (freshIds : Nat → String) (fromAgentId sessionId type : String)
    (content : Option String) (b : MessageBus) (p : Nat × Agent) : MessageBus :=
  if p.2.id ≠ fromAgentId then
    (b.send (freshIds p.1)
      { from' := fromAgentId, to' := p.2.id, sessionId := sessionId,
        type := type, content := content }).2
  else b

/-- Orchestrator.sessionsSend: look up the session, validate, then either
expand a broadcast (one direct bus send per agent whose id differs from the
sender) or perform a single direct bus send. freshIds supplies the
generated message ids, now the timestamp used in the broadcast result id. -/
def sessionsSend (st : OrchestratorState) (freshIds : Nat → String) (now : Nat)
    (fromAgentId sessionId to' type : String) (content : Option String) :
    SendResult × OrchestratorState :=
  match st.sessions sessionId with
  | none => ({ success := false, error := some ("Session not found: " ++ sessionId) }, st)
  | some session =>
    let validation := validateMessage
      { from' := some fromAgentId, to' := some to', sessionId := some sessionId,
        type := some type, content := content }
    if validation.valid = false then
      ({ success := false, error := validation.error }, st)
    else if to' = "all" then
      let bus := (session.agents.enum).foldl
        (broadcastStep freshIds fromAgentId sessionId type content) st.bus
      ({ success := true, messageId := some ("broadcast-" ++ toString now) },
       { st with bus := bus })
    else
      let sent := st.bus.send (freshIds 0)
        { from' := fromAgentId, to' := to', sessionId := sessionId,
          type := type, content := content }
      ({ success := true, messageId := some sent.1.id }, { st with bus := sent.2 })

/-- Orchestrator.sessionsHistory delegates to the bus. -/
def sessionsHistory (st : OrchestratorState) (sessionId : String) (limit : Option Nat) :
    List AgentMessage :=
  st.bus.getSessionHistory sessionId limit

/-- The fixed completionSignals list of Orchestrator.isSessionComplete. -/
def completionSignals : List String :=
  ["workflow complete", "session complete", "collaboration complete",
   "all phases complete", "mission accomplished", "final report"]

/-- Containment of one character list in another (contiguous). -/
def isInfixOfB : List Char → List Char → Bool
  | pat, [] => pat.isEmpty
  | pat, c :: tail => pat.isPrefixOf (c :: tail) || isInfixOfB pat tail

/-- JavaScript String.prototype.includes, via character lists. -/
def strIncludes (s pat : String) : Bool :=
  isInfixOfB pat.toList s.toList

/-- ASCII lowercase of one character (the completion signals and the
responses the claims compare against are ASCII). -/
def charToLower (c : Char) : Char :=
  if 65 ≤ c.toNat ∧ c.toNat ≤ 90 then Char.ofNat (c.toNat + 32) else c

/-- JavaScript String.prototype.toLowerCase, restricted to ASCII. -/
def toLowerCase (s : String) : String :=
  String.mk (s.data.map charToLower)

/-- Orchestrator.isSessionComplete: true when the lowercased response
contains one of the completion signals, or when at least as many COMPLETE
messages as the session has agents are in the retained session history
(the source binds lowerResponse, history and completeMessages in local
consts, inlined here). -/
def isSessionComplete (bus : MessageBus) (session : Session) (response : String) : Bool :=
  if completionSignals.any (fun signal => strIncludes (toLowerCase response) signal) then
    true
  else
    if ((bus.getSessionHistory session.id none).filter
          (fun m => m.type == "COMPLETE")).length ≥ session.agents.length then true
    else false

/-- Modelled from the spec: the completion predicate in the spec's words —
the turn's narrative response contains, case-insensitively, one of the
fixed canonical completion phrases, or the count of messages of COMPLETE
type in the retained session history has reached the number of
participating agents. -/
def completionSpec (bus : MessageBus) (session : Session) (response : String) : Prop :=
  (∃ signal ∈ completionSignals,
    strIncludes (toLowerCase response) (toLowerCase signal) = true) ∨
  ((bus.getSessionHistory session.id none).filter (fun m => m.type == "COMPLETE")).length ≥
    session.agents.length

/-- GATED_TOOLS from types.ts: gated side-effecting tools, added to the
catalog only when transactions are allowed. -/
def GATED_TOOLS : List String :=
  ["ton_wallet_send"]

/-- AgentRuntime.getSessionForAgent (types.ts): the source body returns
undefined unconditionally, as a circular-dependency workaround, regardless
of the session id. -/
def getSessionForAgent (_sessionId : String) : Option Session :=
  none

/-- AgentRuntime.buildToolDefinitions, restricted to the names of the
tools pushed onto the catalog. allowTransactions mirrors the optional
chaining: session is getSessionForAgent sessionId, and absent values
default to false. The gated ton_wallet_send tool is pushed only when
allowTransactions holds. -/
def buildToolDefinitions (sessionId : String) : List String :=
  let session := getSessionForAgent sessionId
  let allowTransactions := (session.bind (fun s => s.config.allowTransactions)).getD false
  let tools : List String :=
    ["sessions_send", "sessions_list", "sessions_history", "gallery_emit",
     "ton_wallet_balance", "ton_wallet_transactions", "ton_contract_get_info",
     "ton_contract_call_getter", "ton_contract_jetton_info", "ton_contract_nft_info"]
  if allowTransactions then tools ++ ["ton_wallet_send"] else tools

/-- A tool_use content block of a reasoning-primitive output (input payload
not tracked). -/
structure ToolCall where
  id : String
  name : String
  deriving DecidableEq

/-- One output of the reasoning primitive inside AgentRuntime.executeTurn:
its text blocks, its tool_use blocks, and its stop reason. -/
structure PrimitiveOutput where
  textBlocks : List String
  toolCalls : List ToolCall
  stopReason : String
  deriving DecidableEq

/-- Exit condition of the while-loop in AgentRuntime.executeTurn: the loop
sets continueLoop to false when the output carries no tool_use blocks, and
also when the stop reason is end_turn or stop_sequence. -/
def exitsToolLoop (output : PrimitiveOutput) : Bool :=
  output.toolCalls.isEmpty ||
    output.stopReason == "end_turn" || output.stopReason == "stop_sequence"

/-- The tool-use while-loop of AgentRuntime.executeTurn over the stream of
primitive outputs. The source loop carries no iteration counter or cap; to
express it as a total Lean function it takes explicit fuel and returns none
when the loop has not exited within that many iterations. On exit the
response is the newline-join of the last output's text blocks. -/
def executeTurnLoop (outputs : Nat → PrimitiveOutput) : Nat → Nat → Option String
  | _, 0 => none
  | i, fuel + 1 =>
    if exitsToolLoop (outputs i) then some (String.intercalate "\n" (outputs i).textBlocks)
    else executeTurnLoop outputs (i + 1) fuel

/-- The shared shape of the four topology while-loops in message-bus.ts:
while session.status is running and turnCount is below the turn budget, run
the round's turns, break if the round's completion check fires, otherwise
increment turnCount. Returns the final turnCount. The session status is
read each iteration; this model covers executions without a concurrent
status change. -/
def topologyLoop (maxTurns : Nat) (status : SessionStatus) (completeAt : Nat → Bool)
    (turnCount : Nat) : Nat :=
  if h : status = SessionStatus.running ∧ turnCount < maxTurns then
    if completeAt turnCount then turnCount
    else topologyLoop maxTurns status completeAt (turnCount + 1)
  else turnCount
termination_by maxTurns - turnCount
decreasing_by simp_wf; omega

/-- Orchestrator.runSoloSession: turn budget 20; the round-k completion
check applies isSessionComplete to the bus state visible at that check
(busAt k; turns may append messages through tools) and the agent's round-k
narrative response. Ends with completeSession. Returns the session after
completeSession and the number of budgeted rounds counted by the loop. -/
def runSoloSession (session : Session) (busAt : Nat → MessageBus)
    (responses : Nat → String) (now : Nat) : Session × Nat :=
  let turns := topologyLoop 20 session.status
    (fun k => isSessionComplete (busAt k) session (responses k)) 0
  (completeSession session now, turns)

/-- Orchestrator.runDuetSession: after the initialization turns, budget 15;
a round completes only when both concurrent responses satisfy
isSessionComplete. -/
def runDuetSession (session : Session) (busAt : Nat → MessageBus)
    (responsesA responsesB : Nat → String) (now : Nat) : Session × Nat :=
  let turns := topologyLoop 15 session.status
    (fun k => isSessionComplete (busAt k) session (responsesA k) &&
              isSessionComplete (busAt k) session (responsesB k)) 0
  (completeSession session now, turns)

/-- Orchestrator.runGroupSession round-robin loop: budget 20. In the
source, a completion signal only breaks the inner for-loop over the agents
(ending the round early); the outer while condition tests only the status
and the budget, so the outer loop's own completion check is constant
false and every round up to the budget is entered. -/
def runGroupSession (session : Session) (now : Nat) : Session × Nat :=
  let turns := topologyLoop 20 session.status (fun _ => false) 0
  (completeSession session now, turns)

/-- Orchestrator.runPyramidSession: after the decomposition and worker
initialization turns, budget 25; each round runs the workers then the
oracle, and only the oracle's synthesis response is checked for
completion. -/
def runPyramidSession (session : Session) (busAt : Nat → MessageBus)
    (oracleResponses : Nat → String) (now : Nat) : Session × Nat :=
  let turns := topologyLoop 25 session.status
    (fun k => isSessionComplete (busAt k) session (oracleResponses k)) 0
  (completeSession session now, turns)

/-- The ranFor computation of the position_stop handler in
position-invoke.ts: floor of the elapsed milliseconds over 1000. -/
def positionStopRanFor (now startedAt : Nat) : Nat :=
  (now - startedAt) / 1000

/-- Folding a list of (fresh id, draft) pairs through MessageBus.send. -/
def sendAll (bus : MessageBus) (drafts : List (String × MessageDraft)) : MessageBus :=
  drafts.foldl (fun b p => (b.send p.1 p.2).2) bus

/-- A primitive output stream that requests a tool on every invocation and
never reports a terminal stop reason. -/
def alwaysToolOutputs : Nat → PrimitiveOutput := fun _ =>
  { textBlocks := ["working"],
    toolCalls := [{ id := "t1", name := "gallery_emit" }],
    stopReason := "tool_use" }

/-- A primitive output stream whose first output is narrative only. -/
def immediateTextOutputs : Nat → PrimitiveOutput := fun _ =>
  { textBlocks := ["done"], toolCalls := [], stopReason := "end_turn" }

/-! Concrete fixtures used by witness and counterexample theorems. -/

/-- A bus with no recorded messages and the default retention cap. -/
def emptyBus : MessageBus :=
  { messages := fun _ => [], pendingByAgent := fun _ => [], maxMessagesPerSession := 1000 }

/-- A two-agent fixture session in running state. -/
def demoSession : Session :=
  { id := "s1", positionName := "mirror", category := "duet",
    agents := [{ id := "agent-a", sessionId := "s1", roleName := "Reflector" },
               { id := "agent-b", sessionId := "s1", roleName := "Verifier" }],
    status := SessionStatus.running }

/-- Orchestrator fixture holding demoSession under its id. -/
def demoState : OrchestratorState :=
  { sessions := fun sid => if sid = "s1" then some demoSession else none,
    bus := emptyBus }

/-- Fixture draft addressed to the orchestrator. -/
def demoDraftOrch : MessageDraft :=
  { from' := "agent-b", to' := "orchestrator", sessionId := "s1",
    type := "RESULTS", content := some "r" }

/-- Fixture message addressed to agent-a. -/
def demoMessage : AgentMessage :=
  { id := "x", from' := "agent-b", to' := "agent-a", sessionId := "s1",
    type := "RESULTS", content := some "r", acknowledged := false }

/-- Fixture bus with a retention cap of 2 messages per session. -/
def capTwoBus : MessageBus :=
  { messages := fun _ => [], pendingByAgent := fun _ => [], maxMessagesPerSession := 2 }

/-- Fixture drafts: three messages into session s1. -/
def threeDrafts : List (String × MessageDraft) :=
  [("m1", { from' := "agent-a", to' := "agent-b", sessionId := "s1",
            type := "RESULTS", content := some "one" }),
   ("m2", { from' := "agent-b", to' := "agent-a", sessionId := "s1",
            type := "ACKNOWLEDGE", content := some "two" }),
   ("m3", { from' := "agent-a", to' := "agent-b", sessionId := "s1",
            type := "COMPLETE", content := some "three" })]

/-- A fixture session already in the terminal completed status. -/
def completedSession : Session :=
  { demoSession with id := "s2", status := SessionStatus.completed, completedAt := some 3 }

/-- State holding the completed fixture session. -/
def terminalState : OrchestratorState :=
  { sessions := fun sid => if sid = "s2" then some completedSession else none,
    bus := emptyBus }

/-- A fixture session already in the terminal stopped status. -/
def stoppedSession : Session :=
  { demoSession with id := "s3", status := SessionStatus.stopped, completedAt := some 3 }

/-- State holding the stopped fixture session. -/
def stoppedState : OrchestratorState :=
  { sessions := fun sid => if sid = "s3" then some stoppedSession else none,
    bus := emptyBus }

/-! Theorems for the claims. -/

/-- C2: the tool catalog built by AgentRuntime.buildToolDefinitions never
contains the gated side-effecting tool ton_wallet_send, for every session
id (hence for every session and configuration, allowTransactions
included): getSessionForAgent always returns none, so the gated branch is
unreachable, and ton_wallet_send is exactly the gated tool list entry. -/
theorem gated_tool_never_offered :
    (∀ sessionId, getSessionForAgent sessionId = none) ∧
    (∀ sessionId, "ton_wallet_send" ∉ buildToolDefinitions sessionId) ∧
    "ton_wallet_send" ∈ GATED_TOOLS := by
  refine ⟨fun _ => rfl, fun sessionId => ?_, by decide⟩
  unfold buildToolDefinitions getSessionForAgent
  decide

/-- C7: MessageBus.receive returns exactly the agent's pending queue (which
addToPending maintains in enqueue order, appending each new message), a
subsequent receive before any new enqueue returns the empty list, and a
send addressed to a different recipient (including the unrouted broadcast
and orchestrator recipients) leaves the agent's pending queue unchanged. -/
theorem receive_drains_exactly (bus : MessageBus) (agentId : String) (message : AgentMessage) :
    (bus.receive agentId).1 = bus.pendingByAgent agentId ∧
    ((bus.receive agentId).2.receive agentId).1 = [] ∧
    (bus.addToPending agentId message).pendingByAgent agentId =
      bus.pendingByAgent agentId ++ [message] ∧
    (∀ (freshId : String) (draft : MessageDraft), draft.to' ≠ agentId →
      ((bus.send freshId draft).2).pendingByAgent agentId = bus.pendingByAgent agentId) := by
  refine ⟨rfl, by simp [MessageBus.receive], by simp [MessageBus.addToPending], ?_⟩
  intro freshId draft hne
  unfold MessageBus.send
  by_cases hall : draft.to' = "all"
  · simp [hall, MessageBus.broadcastInSession, MessageBus.addToSessionHistory]
  · by_cases horch : draft.to' = "orchestrator"
    · simp [hall, horch, MessageBus.addToSessionHistory]
    · simp [hall, horch, MessageBus.addToPending, MessageBus.addToSessionHistory,
        if_neg (Ne.symm hne)]

/-- Witness for C7 at a concrete bus and agent. -/
theorem receive_drains_exactly_witness :
    demoDraftOrch.to' ≠ "agent-a" ∧
    ((emptyBus.receive "agent-a").1 = emptyBus.pendingByAgent "agent-a" ∧
     ((emptyBus.send "m1" demoDraftOrch).2).pendingByAgent "agent-a" =
       emptyBus.pendingByAgent "agent-a") :=
  ⟨by decide,
   (receive_drains_exactly emptyBus "agent-a" demoMessage).1,
   (receive_drains_exactly emptyBus "agent-a" demoMessage).2.2.2 "m1" demoDraftOrch (by decide)⟩

/-- C4: a sessionsSend whose message fails validation (unknown type,
missing or empty sender, recipient or session id, or undefined content) is
rejected atomically: the result carries success false and the structured
validation error, and the orchestrator state — in particular every pending
queue and every session history, hence every later history result — is
exactly the state before the call. -/
theorem malformed_send_rejected_atomically (st : OrchestratorState) (freshIds : Nat → String)
    (now : Nat) (fromAgentId sessionId to' type : String) (content : Option String)
    (session : Session) (hs : st.sessions sessionId = some session)
    (hinvalid : (validateMessage (PartialMessage.mk (some fromAgentId) (some to')
      (some sessionId) (some type) content)).valid = false) :
    (sessionsSend st freshIds now fromAgentId sessionId to' type content).1.success = false ∧
    (sessionsSend st freshIds now fromAgentId sessionId to' type content).1.error =
      (validateMessage (PartialMessage.mk (some fromAgentId) (some to')
        (some sessionId) (some type) content)).error ∧
    (sessionsSend st freshIds now fromAgentId sessionId to' type content).2 = st ∧
    (∀ sid limit, sessionsHistory (sessionsSend st freshIds now
        fromAgentId sessionId to' type content).2 sid limit = sessionsHistory st sid limit) ∧
    (∀ a, (sessionsSend st freshIds now fromAgentId sessionId to' type content).2.bus.pendingByAgent a =
      st.bus.pendingByAgent a) := by
  unfold sessionsSend
  rw [hs]
  simp only [hinvalid, if_pos rfl]
  exact ⟨rfl, rfl, rfl, fun _ _ => rfl, fun _ => rfl⟩

/-- Witness for C4: a send with an unknown message type against the
fixture state is rejected and leaves the state unchanged. -/
theorem malformed_send_rejected_atomically_witness :
    demoState.sessions "s1" = some demoSession ∧
    (validateMessage (PartialMessage.mk (some "agent-a") (some "agent-b")
      (some "s1") (some "NOT_A_REAL_TYPE") (some "x"))).valid = false ∧
    (sessionsSend demoState (fun n => toString n) 0 "agent-a" "s1" "agent-b" "NOT_A_REAL_TYPE"
      (some "x")).2 = demoState :=
  ⟨by decide, by decide,
   (malformed_send_rejected_atomically demoState (fun n => toString n) 0 "agent-a" "s1"
     "agent-b" "NOT_A_REAL_TYPE" (some "x") demoSession (by decide) (by decide)).2.2.1⟩

/-- C9: the completion predicate of the orchestrator holds exactly when the
turn response contains, case-insensitively, one of the fixed canonical
completion phrases, or the count of COMPLETE-typed messages in the
session's retained history has reached the number of participating agents
(either disjunct alone suffices). -/
theorem isSessionComplete_iff_spec (bus : MessageBus) (session : Session) (response : String) :
    isSessionComplete bus session response = true ↔ completionSpec bus session response := by
  have hsig : ∀ s ∈ completionSignals, toLowerCase s = s := by decide
  unfold isSessionComplete completionSpec
  by_cases hany :
      (completionSignals.any fun signal => strIncludes (toLowerCase response) signal) = true
  · rw [if_pos hany]
    simp only [true_iff]
    rw [List.any_eq_true] at hany
    obtain ⟨s, hs, hinc⟩ := hany
    exact Or.inl ⟨s, hs, by rwa [hsig s hs]⟩
  · rw [if_neg hany]
    constructor
    · intro h
      split at h
      · rename_i hcount
        exact Or.inr hcount
      · cases h
    · intro h
      rcases h with ⟨s, hs, hinc⟩ | hcount
      · exact absurd (List.any_eq_true.mpr ⟨s, hs, by rwa [hsig s hs] at hinc⟩) hany
      · rw [if_pos hcount]

/-! History bounding: auxiliary lemmas about the retention trim. -/

/-- The conditional trim of addToSessionHistory is an unconditional
drop of the truncated overflow. -/
theorem trim_eq_drop (cap : Nat) (h : List AgentMessage) :
    (if h.length > cap then h.drop (h.length - cap) else h) = h.drop (h.length - cap) := by
  split
  · rfl
  · rename_i hle
    rw [Nat.sub_eq_zero_of_le (by omega), List.drop_zero]

/-- Keeping the last cap elements twice is the same as once. -/
theorem drop_sub_append {α : Type} (cap : Nat) (X B : List α) :
    ((X.drop (X.length - cap)) ++ B).drop (((X.drop (X.length - cap)) ++ B).length - cap) =
    (X ++ B).drop ((X ++ B).length - cap) := by
  by_cases h : X.length ≤ cap
  · rw [Nat.sub_eq_zero_of_le h, List.drop_zero]
  · push_neg at h
    have hle : X.length - cap ≤ X.length := Nat.sub_le _ _
    rw [← List.drop_append_of_le_length hle, List.drop_drop]
    congr 1
    simp only [List.length_append, List.length_drop]
    omega

/-- A send leaves the retention cap unchanged. -/
theorem send_cap (bus : MessageBus) (i : String) (d : MessageDraft) :
    ((bus.send i d).2).maxMessagesPerSession = bus.maxMessagesPerSession := by
  unfold MessageBus.send MessageBus.addToSessionHistory MessageBus.addToPending
    MessageBus.broadcastInSession
  by_cases h1 : d.to' = "all" <;> by_cases h2 : d.to' = "orchestrator" <;>
    simp [h1, h2]

/-- Effect of one send on the sent-to session's history. -/
theorem send_history (bus : MessageBus) (i : String) (d : MessageDraft) :
    ((bus.send i d).2).messages d.sessionId =
      (bus.messages d.sessionId ++ [d.full i]).drop
        ((bus.messages d.sessionId).length + 1 - bus.maxMessagesPerSession) := by
  have hlen : (bus.messages d.sessionId ++ [d.full i]).length =
      (bus.messages d.sessionId).length + 1 := by simp
  unfold MessageBus.send MessageBus.addToSessionHistory MessageBus.addToPending
    MessageBus.broadcastInSession
  by_cases h1 : d.to' = "all" <;> by_cases h2 : d.to' = "orchestrator" <;>
    simp only [h1, h2, if_pos, if_neg, ite_true, ite_false] <;>
    simp only [MessageDraft.full, if_pos rfl] <;>
    rw [trim_eq_drop] <;> simp

/-- Folded sends to one session produce exactly the last cap entries of the
full send sequence appended to the starting history, provided the starting
history is within the cap. -/
theorem sendAll_history (s : String) :
    ∀ (drafts : List (String × MessageDraft)) (bus : MessageBus),
    (∀ p ∈ drafts, p.2.sessionId = s) →
    (bus.messages s).length ≤ bus.maxMessagesPerSession →
    (sendAll bus drafts).messages s =
      (bus.messages s ++ drafts.map (fun p => p.2.full p.1)).drop
        ((bus.messages s ++ drafts.map (fun p => p.2.full p.1)).length -
          bus.maxMessagesPerSession) ∧
    (sendAll bus drafts).maxMessagesPerSession = bus.maxMessagesPerSession := by
  intro drafts
  induction drafts with
  | nil =>
    intro bus _ hlen
    refine ⟨?_, rfl⟩
    simp only [sendAll, List.foldl_nil, List.map_nil, List.append_nil]
    rw [Nat.sub_eq_zero_of_le hlen, List.drop_zero]
  | cons p rest ih =>
    intro bus hall hlen
    have hp : p.2.sessionId = s := hall p (List.mem_cons_self p rest)
    have hstep : sendAll bus (p :: rest) = sendAll ((bus.send p.1 p.2).2) rest := rfl
    have hlenX : (bus.messages s ++ [p.2.full p.1]).length = (bus.messages s).length + 1 := by
      simp
    have hbus' : ((bus.send p.1 p.2).2).messages s =
        (bus.messages s ++ [p.2.full p.1]).drop
          ((bus.messages s ++ [p.2.full p.1]).length - bus.maxMessagesPerSession) := by
      rw [← hp, send_history, hp, hlenX]
    have hcap' := send_cap bus p.1 p.2
    have hlen' : (((bus.send p.1 p.2).2).messages s).length ≤
        ((bus.send p.1 p.2).2).maxMessagesPerSession := by
      rw [hbus', hcap']
      simp only [List.length_drop]
      omega
    obtain ⟨hmsg, hcap⟩ := ih ((bus.send p.1 p.2).2)
      (fun q hq => hall q (List.mem_cons_of_mem p hq)) hlen'
    rw [hstep]
    refine ⟨?_, by rw [hcap, hcap']⟩
    rw [hmsg, hcap', hbus']
    rw [drop_sub_append bus.maxMessagesPerSession
      (bus.messages s ++ [p.2.full p.1]) (rest.map (fun q => q.2.full q.1))]
    have hlist : (bus.messages s ++ [p.2.full p.1]) ++ rest.map (fun q => q.2.full q.1) =
        bus.messages s ++ (p :: rest).map (fun q => q.2.full q.1) := by
      simp
    rw [hlist]

/-- C10: after more than the retention cap many messages have been sent
within one session (starting from an empty history), the session history
returned by getSessionHistory has exactly the cap many entries and consists
of the most recently sent messages in their original send order; the cap
defaults to 1000. -/
theorem history_bounded (bus0 : MessageBus) (s : String)
    (drafts : List (String × MessageDraft))
    (hempty : bus0.messages s = [])
    (hall : ∀ p ∈ drafts, p.2.sessionId = s)
    (hover : drafts.length > bus0.maxMessagesPerSession) :
    ((sendAll bus0 drafts).getSessionHistory s none).length = bus0.maxMessagesPerSession ∧
    (sendAll bus0 drafts).getSessionHistory s none =
      (drafts.map (fun p => p.2.full p.1)).drop
        (drafts.length - bus0.maxMessagesPerSession) ∧
    defaultMaxMessagesPerSession = 1000 := by
  have hlen0 : (bus0.messages s).length ≤ bus0.maxMessagesPerSession := by
    rw [hempty]; exact Nat.zero_le _
  obtain ⟨hmsg, _⟩ := sendAll_history s drafts bus0 hall hlen0
  have hhist : (sendAll bus0 drafts).getSessionHistory s none =
      (sendAll bus0 drafts).messages s := rfl
  have heq : (sendAll bus0 drafts).getSessionHistory s none =
      (drafts.map (fun p => p.2.full p.1)).drop
        (drafts.length - bus0.maxMessagesPerSession) := by
    rw [hhist, hmsg, hempty]
    simp
  refine ⟨?_, heq, rfl⟩
  rw [heq]
  simp only [List.length_drop, List.length_map]
  omega

/-- Witness for C10: three sends through a cap-2 bus retain the last two. -/
theorem history_bounded_witness :
    capTwoBus.messages "s1" = [] ∧
    (∀ p ∈ threeDrafts, p.2.sessionId = "s1") ∧
    threeDrafts.length > capTwoBus.maxMessagesPerSession ∧
    ((sendAll capTwoBus threeDrafts).getSessionHistory "s1" none).length =
      capTwoBus.maxMessagesPerSession :=
  ⟨rfl, by decide, by decide,
   (history_bounded capTwoBus "s1" threeDrafts rfl (by decide) (by decide)).1⟩

/-! Broadcast fan-out: auxiliary lemmas about the expansion fold. -/

/-- A send leaves the pending queue of any agent other than its recipient
unchanged. -/
theorem send_pending_ne (bus : MessageBus) (i : String) (d : MessageDraft) (x : String)
    (h : d.to' ≠ x) : ((bus.send i d).2).pendingByAgent x = bus.pendingByAgent x := by
  unfold MessageBus.send MessageBus.addToSessionHistory MessageBus.addToPending
    MessageBus.broadcastInSession
  by_cases h1 : d.to' = "all" <;> by_cases h2 : d.to' = "orchestrator" <;>
    simp [h1, h2, if_neg (Ne.symm h)]

/-- A direct send (recipient neither "all" nor "orchestrator") appends the
full message to the recipient's pending queue. -/
theorem send_pending_eq (bus : MessageBus) (i : String) (d : MessageDraft)
    (h1 : d.to' ≠ "all") (h2 : d.to' ≠ "orchestrator") :
    ((bus.send i d).2).pendingByAgent d.to' = bus.pendingByAgent d.to' ++ [d.full i] := by
  unfold MessageBus.send MessageBus.addToSessionHistory MessageBus.addToPending
    MessageBus.broadcastInSession
  simp [h1, h2]

/-- The broadcast fold never touches the sender's own pending queue. -/
theorem broadcast_fold_sender (freshIds : Nat → String) (fromAgentId sessionId type : String)
    (content : Option String) :
    ∀ (l : List (Nat × Agent)) (b : MessageBus),
    (l.foldl (broadcastStep freshIds fromAgentId sessionId type content) b).pendingByAgent
        fromAgentId = b.pendingByAgent fromAgentId := by
  intro l
  induction l with
  | nil => intro b; rfl
  | cons p rest ih =>
    intro b
    rw [List.foldl_cons, ih]
    by_cases hid : p.2.id = fromAgentId
    · simp [broadcastStep, hid]
    · simp only [broadcastStep, if_pos hid]
      exact send_pending_ne b (freshIds p.1) _ fromAgentId hid

/-- The broadcast fold leaves every queue whose id is not among the listed
agents unchanged. -/
theorem broadcast_fold_absent (freshIds : Nat → String) (fromAgentId sessionId type : String)
    (content : Option String) :
    ∀ (l : List (Nat × Agent)) (b : MessageBus) (x : String),
    x ∉ l.map (fun p => p.2.id) →
    (l.foldl (broadcastStep freshIds fromAgentId sessionId type content) b).pendingByAgent x =
      b.pendingByAgent x := by
  intro l
  induction l with
  | nil => intro b x _; rfl
  | cons p rest ih =>
    intro b x hx
    rw [List.map_cons, List.mem_cons] at hx
    push_neg at hx
    rw [List.foldl_cons, ih _ x hx.2]
    by_cases hid : p.2.id = fromAgentId
    · simp [broadcastStep, hid]
    · simp only [broadcastStep, if_pos hid]
      exact send_pending_ne b (freshIds p.1) _ x (fun h => hx.1 h.symm)

/-- The broadcast fold appends exactly one copy to the queue of each listed
recipient other than the sender, provided ids are unique and not the
reserved routing literals. -/
theorem broadcast_fold_recipient (freshIds : Nat → String) (fromAgentId sessionId type : String)
    (content : Option String) :
    ∀ (l : List (Nat × Agent)) (b : MessageBus) (x : String),
    (l.map (fun p => p.2.id)).Nodup →
    x ∈ l.map (fun p => p.2.id) →
    x ≠ fromAgentId → x ≠ "all" → x ≠ "orchestrator" →
    ∃ i : Nat,
      (l.foldl (broadcastStep freshIds fromAgentId sessionId type content) b).pendingByAgent x =
        b.pendingByAgent x ++
          [(MessageDraft.mk fromAgentId x sessionId type content).full (freshIds i)] := by
  intro l
  induction l with
  | nil => intro b x _ hx; exact absurd hx (List.not_mem_nil x)
  | cons p rest ih =>
    intro b x hnodup hx hfrom hall horch
    rw [List.map_cons, List.nodup_cons] at hnodup
    rw [List.map_cons, List.mem_cons] at hx
    rw [List.foldl_cons]
    rcases hx with hx | hx
    · refine ⟨p.1, ?_⟩
      rw [broadcast_fold_absent freshIds fromAgentId sessionId type content rest _ x
        (by rw [hx]; exact hnodup.1)]
      have hid : p.2.id ≠ fromAgentId := by rw [← hx]; exact hfrom
      simp only [broadcastStep, if_pos hid]
      rw [hx]
      exact send_pending_eq b (freshIds p.1)
        (MessageDraft.mk fromAgentId p.2.id sessionId type content)
        (by rw [← hx]; exact hall) (by rw [← hx]; exact horch)
    · obtain ⟨i, hi⟩ := ih (broadcastStep freshIds fromAgentId sessionId type content b p)
        x hnodup.2 hx hfrom hall horch
      refine ⟨i, ?_⟩
      rw [hi]
      have hne : p.2.id ≠ x := by
        intro h
        exact hnodup.1 (h ▸ hx)
      by_cases hid : p.2.id = fromAgentId
      · simp [broadcastStep, hid]
      · simp only [broadcastStep, if_pos hid]
        rw [send_pending_ne b (freshIds p.1) _ x hne]

/-- Enumerating then projecting ids gives the plain id list. -/
theorem enum_map_id (l : List Agent) :
    l.enum.map (fun p => p.2.id) = l.map Agent.id := by
  rw [show (fun p : Nat × Agent => p.2.id) = (Agent.id ∘ Prod.snd) from rfl]
  rw [← List.map_map, List.enum_map_snd]

/-- Filtering out the one occurrence of an id removes exactly one element. -/
theorem filter_ne_length :
    ∀ (l : List Agent) (x : String), (l.map Agent.id).Nodup → x ∈ l.map Agent.id →
    (l.filter (fun b => b.id != x)).length = l.length - 1 := by
  intro l
  induction l with
  | nil => intro x _ hx; exact absurd hx (List.not_mem_nil x)
  | cons a rest ih =>
    intro x hnodup hx
    rw [List.map_cons, List.nodup_cons] at hnodup
    rw [List.map_cons, List.mem_cons] at hx
    rcases hx with hx | hx
    · have hrest : rest.filter (fun b => b.id != x) = rest := by
        rw [List.filter_eq_self]
        intro b hb
        have hbx : b.id ≠ x := by
          intro h
          exact hnodup.1 (by rw [← hx, ← h]; exact List.mem_map_of_mem Agent.id hb)
        simpa using hbx
      have hfalse : (a.id != x) = false := by simp [hx]
      rw [List.filter_cons, hfalse]
      simp [hrest]
    · have hne : (a.id != x) = true := by
        have hax : a.id ≠ x := by
          intro h
          exact hnodup.1 (h ▸ hx)
        simpa using hax
      have hlen := ih x hnodup.2 hx
      have hpos : 0 < rest.length := by
        cases rest with
        | nil => exact absurd hx (by simp)
        | cons c cs => simp
      rw [List.filter_cons, hne]
      rw [if_pos rfl]
      simp only [List.length_cons]
      omega

/-- C3: a broadcast send (sessionsSend with recipient "all") from an actor
of a session with well-formed distinct agent ids succeeds and results in
exactly one copy of the message being appended to the pending queue of
every agent other than the sender — that is, of N-1 agents when the session
has N — and zero copies appended to the sender's own queue. -/
theorem broadcast_fanout (st : OrchestratorState) (freshIds : Nat → String) (now : Nat)
    (fromAgentId sessionId type : String) (content : Option String) (session : Session)
    (hs : st.sessions sessionId = some session)
    (hvalid : (validateMessage (PartialMessage.mk (some fromAgentId) (some "all")
      (some sessionId) (some type) content)).valid = true)
    (hnodup : (session.agents.map Agent.id).Nodup)
    (hfrom : fromAgentId ∈ session.agents.map Agent.id)
    (hids : ∀ b ∈ session.agents, b.id ≠ "all" ∧ b.id ≠ "orchestrator") :
    (sessionsSend st freshIds now fromAgentId sessionId "all" type content).1.success = true ∧
    (∀ b ∈ session.agents, b.id ≠ fromAgentId →
      ∃ i : Nat, (sessionsSend st freshIds now fromAgentId sessionId "all" type
          content).2.bus.pendingByAgent b.id =
        st.bus.pendingByAgent b.id ++
          [(MessageDraft.mk fromAgentId b.id sessionId type content).full (freshIds i)]) ∧
    (sessionsSend st freshIds now fromAgentId sessionId "all" type
        content).2.bus.pendingByAgent fromAgentId = st.bus.pendingByAgent fromAgentId ∧
    (session.agents.filter (fun b => b.id != fromAgentId)).length =
      session.agents.length - 1 := by
  have hred : sessionsSend st freshIds now fromAgentId sessionId "all" type content =
      ({ success := true, messageId := some ("broadcast-" ++ toString now) },
       { st with
          bus := (session.agents.enum).foldl
            (broadcastStep freshIds fromAgentId sessionId type content) st.bus }) := by
    unfold sessionsSend
    rw [hs]
    simp [hvalid]
  rw [hred]
  refine ⟨rfl, ?_, ?_, ?_⟩
  · intro b hb hbne
    have hmem : b.id ∈ session.agents.enum.map (fun p => p.2.id) := by
      rw [enum_map_id]
      exact List.mem_map_of_mem Agent.id hb
    have hnodup' : (session.agents.enum.map (fun p => p.2.id)).Nodup := by
      rw [enum_map_id]; exact hnodup
    exact broadcast_fold_recipient freshIds fromAgentId sessionId type content
      session.agents.enum st.bus b.id hnodup' hmem hbne (hids b hb).1 (hids b hb).2
  · exact broadcast_fold_sender freshIds fromAgentId sessionId type content
      session.agents.enum st.bus
  · exact filter_ne_length session.agents fromAgentId hnodup hfrom

/-- Witness for C3: a broadcast from agent-a in the two-agent fixture
session succeeds and leaves agent-a's own queue untouched. -/
theorem broadcast_fanout_witness :
    demoState.sessions "s1" = some demoSession ∧
    (validateMessage (PartialMessage.mk (some "agent-a") (some "all") (some "s1")
      (some "RESULTS") (some "x"))).valid = true ∧
    (sessionsSend demoState (fun n => toString n) 0 "agent-a" "s1" "all" "RESULTS"
      (some "x")).1.success = true ∧
    (sessionsSend demoState (fun n => toString n) 0 "agent-a" "s1" "all" "RESULTS"
        (some "x")).2.bus.pendingByAgent "agent-a" =
      demoState.bus.pendingByAgent "agent-a" :=
  ⟨by decide, by decide,
   (broadcast_fanout demoState (fun n => toString n) 0 "agent-a" "s1" "RESULTS" (some "x")
     demoSession (by decide) (by decide) (by decide) (by decide) (by decide)).1,
   (broadcast_fanout demoState (fun n => toString n) 0 "agent-a" "s1" "RESULTS" (some "x")
     demoSession (by decide) (by decide) (by decide) (by decide) (by decide)).2.2.1⟩

/-! Budget termination of the topology loops. -/

/-- When the round completion check never fires and the status is running,
the loop counts exactly up to the budget. -/
theorem topologyLoop_never_complete (maxTurns : Nat) (completeAt : Nat → Bool)
    (hnever : ∀ k, completeAt k = false) :
    ∀ (fuel turnCount : Nat), turnCount + fuel = maxTurns →
    topologyLoop maxTurns SessionStatus.running completeAt turnCount = maxTurns := by
  intro fuel
  induction fuel with
  | zero =>
    intro turnCount heq
    unfold topologyLoop
    rw [dif_neg]
    · omega
    · intro hcond
      omega
  | succ n ih =>
    intro turnCount heq
    unfold topologyLoop
    rw [dif_pos ⟨rfl, by omega⟩, hnever turnCount]
    simp only [Bool.false_eq_true, if_false]
    exact ih (turnCount + 1) (by omega)

/-- C5: with a completion predicate that never fires and no thrown turn,
every topology loop performs at most its configured budget of rounds —
20 for solo, 15 for duet, 20 for group round-robin, 25 for
hierarchical/pyramid — and the session then ends with status completed,
not error and not a hang. -/
theorem budget_termination (session : Session) (busAt : Nat → MessageBus)
    (respSolo respA respB respOracle : Nat → String) (now : Nat)
    (hrun : session.status = SessionStatus.running)
    (hneverS : ∀ k, isSessionComplete (busAt k) session (respSolo k) = false)
    (hneverA : ∀ k, isSessionComplete (busAt k) session (respA k) = false)
    (_hneverB : ∀ k, isSessionComplete (busAt k) session (respB k) = false)
    (hneverO : ∀ k, isSessionComplete (busAt k) session (respOracle k) = false) :
    ((runSoloSession session busAt respSolo now).2 ≤ 20 ∧
      (runSoloSession session busAt respSolo now).1.status = SessionStatus.completed) ∧
    ((runDuetSession session busAt respA respB now).2 ≤ 15 ∧
      (runDuetSession session busAt respA respB now).1.status = SessionStatus.completed) ∧
    ((runGroupSession session now).2 ≤ 20 ∧
      (runGroupSession session now).1.status = SessionStatus.completed) ∧
    ((runPyramidSession session busAt respOracle now).2 ≤ 25 ∧
      (runPyramidSession session busAt respOracle now).1.status = SessionStatus.completed) := by
  refine ⟨⟨?_, rfl⟩, ⟨?_, rfl⟩, ⟨?_, rfl⟩, ⟨?_, rfl⟩⟩
  · show topologyLoop 20 session.status _ 0 ≤ 20
    rw [hrun, topologyLoop_never_complete 20 _ hneverS 20 0 rfl]
  · show topologyLoop 15 session.status _ 0 ≤ 15
    rw [hrun, topologyLoop_never_complete 15 _
      (fun k => by rw [hneverA k]; rfl) 15 0 rfl]
  · show topologyLoop 20 session.status _ 0 ≤ 20
    rw [hrun, topologyLoop_never_complete 20 _ (fun _ => rfl) 20 0 rfl]
  · show topologyLoop 25 session.status _ 0 ≤ 25
    rw [hrun, topologyLoop_never_complete 25 _ hneverO 25 0 rfl]

/-- Witness for C5: a running two-agent session whose turns always answer a
non-completing phrase exhausts every budget and completes. -/
theorem budget_termination_witness :
    demoSession.status = SessionStatus.running ∧
    isSessionComplete emptyBus demoSession "continue" = false ∧
    (runSoloSession demoSession (fun _ => emptyBus) (fun _ => "continue") 0).2 ≤ 20 ∧
    (runSoloSession demoSession (fun _ => emptyBus) (fun _ => "continue") 0).1.status =
      SessionStatus.completed := by
  have h : isSessionComplete emptyBus demoSession "continue" = false := by decide
  exact ⟨rfl, h,
    ((budget_termination demoSession (fun _ => emptyBus) (fun _ => "continue")
      (fun _ => "continue") (fun _ => "continue") (fun _ => "continue") 0 rfl
      (fun _ => h) (fun _ => h) (fun _ => h) (fun _ => h)).1).1,
    ((budget_termination demoSession (fun _ => emptyBus) (fun _ => "continue")
      (fun _ => "continue") (fun _ => "continue") (fun _ => "continue") 0 rfl
      (fun _ => h) (fun _ => h) (fun _ => h) (fun _ => h)).1).2⟩

/-! The executeTurn tool-use loop. -/

/-- On the always-tool-requesting stream the loop never exits, whatever
fuel it is given. -/
theorem alwaysTool_loop_none : ∀ (fuel i : Nat), executeTurnLoop alwaysToolOutputs i fuel = none := by
  intro fuel
  induction fuel with
  | zero => intro i; rfl
  | succ n ih =>
    intro i
    unfold executeTurnLoop
    have hfalse : exitsToolLoop (alwaysToolOutputs i) = false := rfl
    rw [if_neg (by rw [hfalse]; exact Bool.false_ne_true)]
    exact ih (i + 1)

/-- C8 counterexample: the tool-use loop of executeTurn does not terminate
for every possible sequence of primitive outputs — on the concrete stream
whose every output requests a tool with stop reason tool_use, the loop
never exits, whatever iteration allowance it is given. -/
theorem tool_loop_unbounded_counterexample :
    ¬ ∀ outputs : Nat → PrimitiveOutput,
        ∃ fuel, (executeTurnLoop outputs 0 fuel).isSome = true := by
  intro h
  obtain ⟨fuel, hsome⟩ := h alwaysToolOutputs
  rw [alwaysTool_loop_none fuel 0] at hsome
  simp at hsome

/-- The loop exits at the first output satisfying the exit condition,
returning its narrative text, once the fuel covers that many iterations. -/
theorem executeTurnLoop_exit (outputs : Nat → PrimitiveOutput) :
    ∀ (k i fuel : Nat), exitsToolLoop (outputs (i + k)) = true →
    (∀ j, j < k → exitsToolLoop (outputs (i + j)) = false) → k < fuel →
    executeTurnLoop outputs i fuel =
      some (String.intercalate "\n" (outputs (i + k)).textBlocks) := by
  intro k
  induction k with
  | zero =>
    intro i fuel hexit _ hfuel
    cases fuel with
    | zero => omega
    | succ n =>
      unfold executeTurnLoop
      rw [if_pos (by simpa using hexit)]
      simp
  | succ m ih =>
    intro i fuel hexit hbefore hfuel
    cases fuel with
    | zero => omega
    | succ n =>
      unfold executeTurnLoop
      rw [if_neg]
      · have hsh : i + 1 + m = i + (m + 1) := by omega
        have hexit' : exitsToolLoop (outputs (i + 1 + m)) = true := by rw [hsh]; exact hexit
        have hbefore' : ∀ j, j < m → exitsToolLoop (outputs (i + 1 + j)) = false := by
          intro j hj
          have : i + 1 + j = i + (j + 1) := by omega
          rw [this]
          exact hbefore (j + 1) (by omega)
        rw [ih (i + 1) n hexit' hbefore' (by omega), hsh]
      · have := hbefore 0 (by omega)
        simpa using this

/-- C8 (amended): the tool-use loop inside executeTurn ends exactly when a
primitive output satisfies the exit condition — no tool_use blocks, or a
stop reason of end_turn or stop_sequence — and that output's narrative
text is the turn's response; the loop carries no internal iteration cap,
so on a stream whose every output requests a tool it runs forever. -/
theorem tool_loop_exit_characterization (outputs : Nat → PrimitiveOutput) (k : Nat)
    (hexit : exitsToolLoop (outputs k) = true)
    (hbefore : ∀ j, j < k → exitsToolLoop (outputs j) = false) :
    (∀ fuel, k < fuel → executeTurnLoop outputs 0 fuel =
      some (String.intercalate "\n" (outputs k).textBlocks)) ∧
    (∀ fuel, executeTurnLoop alwaysToolOutputs 0 fuel = none) := by
  constructor
  · intro fuel hfuel
    have h := executeTurnLoop_exit outputs k 0 fuel (by simpa using hexit)
      (by intro j hj; simpa using hbefore j hj) hfuel
    simpa using h
  · intro fuel
    exact alwaysTool_loop_none fuel 0

/-- Witness for C8 (amended): a first output with only narrative text ends
the loop immediately with that text as the response. -/
theorem tool_loop_exit_characterization_witness :
    exitsToolLoop (immediateTextOutputs 0) = true ∧
    executeTurnLoop immediateTextOutputs 0 1 = some "done" := by
  have h := (tool_loop_exit_characterization immediateTextOutputs 0 (by decide)
    (fun j hj => absurd hj (Nat.not_lt_zero j))).1 1 (by omega)
  exact ⟨by decide, by rw [h]; rfl⟩

/-! Session status state machine. -/

/-- Effect of stopSession on a known session: the stored session keeps its
data but the status becomes stopped and completedAt the stop time. -/
theorem stopSession_known (st : OrchestratorState) (sid : String) (n : Nat)
    (session : Session) (hs : st.sessions sid = some session) :
    (stopSession st sid n).sessions sid =
      some { session with status := SessionStatus.stopped, completedAt := some n } := by
  unfold stopSession
  rw [hs]
  simp

/-- C1 counterexample: stopSession applied to a session whose status is the
terminal completed changes that status to stopped, so terminal statuses
are not absorbing. -/
theorem stop_changes_terminal_status_counterexample :
    (terminalState.sessions "s2").map Session.status = some SessionStatus.completed ∧
    SessionStatus.completed.isTerminal = true ∧
    ((stopSession terminalState "s2" 7).sessions "s2").map Session.status =
      some SessionStatus.stopped ∧
    SessionStatus.stopped ≠ SessionStatus.completed := by
  refine ⟨by decide, by decide, by decide, by decide⟩

/-- C1 (amended): createSession drives the status along the declared path
initializing → spawning_agents → running, and completeSession performs the
declared running → completed transition; but terminal statuses are not
absorbing: stopSession on any known session sets the status to stopped
whatever the previous status (terminal included), and completeSession at
the end of a topology loop sets completed even from stopped — neither is
an edge of the declared machine. -/
theorem session_status_paths (sessionId positionName category : String)
    (agents : List Agent) (config : SessionConfig) (now : Nat)
    (st : OrchestratorState) (sid : String) (session : Session)
    (hs : st.sessions sid = some session) :
    (createSession sessionId positionName category agents config now).2 =
      [SessionStatus.initializing, SessionStatus.spawning_agents, SessionStatus.running] ∧
    List.Chain' (fun a b => declaredEdge a b = true)
      (createSession sessionId positionName category agents config now).2 ∧
    (completeSession session now).status = SessionStatus.completed ∧
    declaredEdge SessionStatus.running SessionStatus.completed = true ∧
    ((stopSession st sid now).sessions sid).map Session.status = some SessionStatus.stopped ∧
    declaredEdge SessionStatus.completed SessionStatus.stopped = false ∧
    (completeSession { session with status := SessionStatus.stopped } now).status =
      SessionStatus.completed ∧
    declaredEdge SessionStatus.stopped SessionStatus.completed = false := by
  have hlist : (createSession sessionId positionName category agents config now).2 =
      [SessionStatus.initializing, SessionStatus.spawning_agents, SessionStatus.running] := rfl
  refine ⟨hlist, ?_, rfl, by decide, ?_, by decide, rfl, by decide⟩
  · rw [hlist]
    exact List.chain'_cons.mpr ⟨by decide, List.chain'_cons.mpr ⟨by decide, by simp⟩⟩
  · rw [stopSession_known st sid now session hs]
    rfl

/-- Witness for C1 (amended) at the fixture running session. -/
theorem session_status_paths_witness :
    demoState.sessions "s1" = some demoSession ∧
    ((stopSession demoState "s1" 9).sessions "s1").map Session.status =
      some SessionStatus.stopped :=
  ⟨by decide,
   (session_status_paths "x" "mirror" "duet" [] {} 0 demoState "s1" demoSession
     (by decide)).2.2.2.2.1⟩

/-- C6 counterexample: stopSession on an already-terminal (stopped) session
is not a no-op — it rewrites completedAt from the original stop time to
the new call's time. -/
theorem stop_terminal_not_noop_counterexample :
    (stoppedState.sessions "s3").map Session.status = some SessionStatus.stopped ∧
    SessionStatus.stopped.isTerminal = true ∧
    (stoppedState.sessions "s3").map Session.completedAt = some (some 3) ∧
    ((stopSession stoppedState "s3" 9).sessions "s3").map Session.completedAt =
      some (some 9) := by
  refine ⟨by decide, by decide, by decide, by decide⟩

/-- C6 (amended): stopSession is a no-op, and throw-free, on an unknown
session id; on a known session it always sets the status to stopped and
completedAt to the stop time — including on an already-terminal session,
where it is therefore not a no-op; stopping twice yields the terminal
status stopped both times, the second call cannot throw (every path is a
total function), and the position_stop ran-for duration it reports is
non-decreasing across the two calls. -/
theorem stop_idempotent_amended (st : OrchestratorState) (sid : String) (n1 n2 : Nat)
    (session : Session) (hs : st.sessions sid = some session) (hle : n1 ≤ n2) :
    (∀ (st' : OrchestratorState) (x : String) (n : Nat), st'.sessions x = none →
      stopSession st' x n = st') ∧
    ((stopSession st sid n1).sessions sid).map Session.status = some SessionStatus.stopped ∧
    ((stopSession (stopSession st sid n1) sid n2).sessions sid).map Session.status =
      some SessionStatus.stopped ∧
    positionStopRanFor n1 session.startedAt ≤ positionStopRanFor n2 session.startedAt := by
  have hfirst := stopSession_known st sid n1 session hs
  refine ⟨?_, ?_, ?_, ?_⟩
  · intro st' x n hnone
    unfold stopSession
    rw [hnone]
  · rw [hfirst]
    rfl
  · rw [stopSession_known (stopSession st sid n1) sid n2 _ hfirst]
    rfl
  · exact Nat.div_le_div_right (Nat.sub_le_sub_right hle _)

/-- Witness for C6 (amended): two stops of the fixture running session. -/
theorem stop_idempotent_amended_witness :
    demoState.sessions "s1" = some demoSession ∧ 5 ≤ 9 ∧
    ((stopSession (stopSession demoState "s1" 5) "s1" 9).sessions "s1").map Session.status =
      some SessionStatus.stopped ∧
    positionStopRanFor 5 demoSession.startedAt ≤ positionStopRanFor 9 demoSession.startedAt :=
  ⟨by decide, by omega,
   (stop_idempotent_amended demoState "s1" 5 9 demoSession (by decide) (by omega)).2.2.1,
   (stop_idempotent_amended demoState "s1" 5 9 demoSession (by decide) (by omega)).2.2.2⟩

end Clawmasutra
